import Mathlib

/-!
Shallow embedding of the ShadowTrace quota-aware search-and-match engine
(JavaScript) and theorems checking the specification's claims against it.

Conventions of the embedding:
- JavaScript numbers that hold millisecond timestamps, page numbers or
  record counts are modelled as `Int` (they are integral in the source).
- API point quantities are fractional (POINTS_PER_REQUEST = 1.1), so they
  are modelled as `ℚ`.
- JavaScript `null` is `Option.none`; truthiness tests on numeric values
  (`!x`, `x ? a : b`, `x || d`) treat both `null` and `0` as falsy and are
  modelled explicitly at each site.
- `async` functions become pure state-passing functions; the network is an
  explicit oracle argument; exceptions become `Except`.
-/

namespace ShadowTrace

/- Constants from src/js/constants.js, SEARCH_CONSTANTS. -/
namespace SEARCH_CONSTANTS

def MAX_PAGES : Nat := 1600

def MAX_BATCH_SIZE : Int := 30

def MAX_RETRIES : Nat := 2

end SEARCH_CONSTANTS

/- Constants from src/js/constants.js, RATE_LIMIT_CONSTANTS. -/
namespace RATE_LIMIT_CONSTANTS

def WINDOW_MS : Int := 120000

def MAX_REQUESTS : Int := 240

def SAFETY_MARGIN_MS : Int := 1000

def POINTS_PER_REQUEST : ℚ := 11 / 10

end RATE_LIMIT_CONSTANTS

/- Constants from src/js/constants.js, MATCHING_THRESHOLDS. -/
namespace MATCHING_THRESHOLDS

def TIME_DIFF_MS : Int := 10000

def DURATION_DIFF_MS : Int := 5000

end MATCHING_THRESHOLDS

/- Constants from src/js/constants.js, CACHE_CONSTANTS. -/
namespace CACHE_CONSTANTS

def CLEANUP_THRESHOLD_MS : Int := 60000

end CACHE_CONSTANTS

/-! Matching engine: src/unnamed/part_002, class LogMatcher. -/

/-- Server reference stored on a ranking record. -/
structure ServerRef where
  name : String
  region : String
deriving DecidableEq, Repr

/-- Owning report reference stored on a ranking record. -/
structure ReportRef where
  code : String
  fightID : Int
deriving DecidableEq, Repr

/-- Candidate ranking record, the fields the engine reads. -/
structure RankingEntry where
  name : String
  startTime : Int
  duration : Int
  spec : String
  amount : ℚ
  server : Option ServerRef
  report : Option ReportRef
deriving DecidableEq, Repr

/-- Anonymized fight, the fields LogMatcher reads. -/
structure Fight where
  id : Int
  startTime : Int
  endTime : Int
deriving DecidableEq, Repr

/-- State built by the LogMatcher constructor (src/unnamed/part_002 lines 5-12). -/
structure LogMatcher where
  anonymousFight : Fight
  reportStartTime : Int
  anonymousReportCode : String
  anonymousFightID : Int
  absoluteStartTime : Int
  duration : Int
deriving Repr

/-- Constructor of LogMatcher: absoluteStartTime = reportStartTime + fight.startTime,
duration = fight.endTime - fight.startTime. -/
def LogMatcher.make (anonymousFight : Fight) (reportStartTime : Int)
    (anonymousReportCode : String) : LogMatcher :=
  { anonymousFight := anonymousFight
    reportStartTime := reportStartTime
    anonymousReportCode := anonymousReportCode
    anonymousFightID := anonymousFight.id
    absoluteStartTime := reportStartTime + anonymousFight.startTime
    duration := anonymousFight.endTime - anonymousFight.startTime }

/-- Result object of LogMatcher.match; on a non-match the JS object carries
no diff fields, modelled with `Option`. -/
structure MatchResult where
  matched : Bool
  timeDiff : Option Int
  durationDiff : Option Int
deriving DecidableEq, Repr

/-- Embedding of LogMatcher.match (src/unnamed/part_002 lines 14-38).
Note the source compares timeDiff against DURATION_DIFF_MS and durationDiff
against TIME_DIFF_MS. -/
def LogMatcher.matchRanking (m : LogMatcher) (ranking : RankingEntry) : MatchResult :=
  let rankingAbsoluteTime := ranking.startTime
  let timeDiff := |rankingAbsoluteTime - m.absoluteStartTime|
  let durationDiff := |ranking.duration - m.duration|
  let timeMatch := decide (timeDiff < MATCHING_THRESHOLDS.DURATION_DIFF_MS)
  let durationMatch := decide (durationDiff < MATCHING_THRESHOLDS.TIME_DIFF_MS)
  if timeMatch && durationMatch then
    { matched := true, timeDiff := some timeDiff, durationDiff := some durationDiff }
  else
    { matched := false, timeDiff := none, durationDiff := none }

/-! Rate limiter: src/js/rate-limiter.js, class RateLimiter. -/

/-- One entry of RateLimiter.requestHistory. -/
structure RequestRecord where
  timestamp : Int
  count : Int
deriving DecidableEq, Repr

namespace RateLimiter

/-- Window filter used by getRecentRequestCount: keep records with
timestamp strictly greater than now - WINDOW_MS. -/
def filterRecent (now : Int) (history : List RequestRecord) : List RequestRecord :=
  let cutoff := now - RATE_LIMIT_CONSTANTS.WINDOW_MS
  history.filter (fun r => decide (cutoff < r.timestamp))

/-- Embedding of RateLimiter.getRecentRequestCount (lines 44-57): filters the
shared history in place and returns the sum of the remaining counts.  The
returned pair is (sum, new requestHistory). -/
def getRecentRequestCount (now : Int) (history : List RequestRecord) :
    Int × List RequestRecord :=
  let filtered := filterRecent now history
  (filtered.foldl (fun sum r => sum + r.count) 0, filtered)

/-- Embedding of RateLimiter.addRequestRecord (lines 63-69): pushes
{timestamp: now, count} onto the shared history. -/
def addRequestRecord (now : Int) (count : Int) (history : List RequestRecord) :
    List RequestRecord :=
  history ++ [{ timestamp := now, count := count }]

/-- Embedding of RateLimiter.getAvailableRequestSlots (lines 75-77). -/
def getAvailableRequestSlots (now : Int) (history : List RequestRecord) :
    Int × List RequestRecord :=
  let recent := getRecentRequestCount now history
  (max 0 (RATE_LIMIT_CONSTANTS.MAX_REQUESTS - recent.1), recent.2)

end RateLimiter

/-- Claim C1: LogMatcher.match declares a match exactly when the time delta
|candidate.startTime - (reportStartTime + fight.startTime)| is below
DURATION_DIFF_MS (5000 ms) and the duration delta
|candidate.duration - (fight.endTime - fight.startTime)| is below
TIME_DIFF_MS (10000 ms); for the anonymized fight with absolute start 1000
and duration 5000, candidate {start=3000, duration=5100} matches and
candidate {start=20000, duration=5100} does not. -/
theorem C1_match_swapped_thresholds :
    (∀ (fight : Fight) (reportStart : Int) (code : String) (r : RankingEntry),
      ((LogMatcher.make fight reportStart code).matchRanking r).matched = true ↔
        (|r.startTime - (reportStart + fight.startTime)| <
            MATCHING_THRESHOLDS.DURATION_DIFF_MS ∧
         |r.duration - (fight.endTime - fight.startTime)| <
            MATCHING_THRESHOLDS.TIME_DIFF_MS)) ∧
    ((LogMatcher.make ⟨1, 1000, 6000⟩ 0 "anon").matchRanking
        ⟨"A", 3000, 5100, "s", 0, none, none⟩).matched = true ∧
    ((LogMatcher.make ⟨1, 1000, 6000⟩ 0 "anon").matchRanking
        ⟨"B", 20000, 5100, "s", 0, none, none⟩).matched = false := by
  refine ⟨?_, by decide, by decide⟩
  intro fight reportStart code r
  simp only [LogMatcher.make, LogMatcher.matchRanking]
  by_cases h1 : |r.startTime - (reportStart + fight.startTime)| <
      MATCHING_THRESHOLDS.DURATION_DIFF_MS <;>
    by_cases h2 : |r.duration - (fight.endTime - fight.startTime)| <
      MATCHING_THRESHOLDS.TIME_DIFF_MS <;>
    simp [h1, h2]

/-! Persistent ranking cache: src/js/cache.js, class RankingCache.
The localforage instance is a keyed store; it is modelled as an association
list with the usual keyed get / replace-or-append set / remove. -/

/-- Shape of one persisted cache value (the cacheData object built by
RankingCache.set, lines 120-129). -/
structure CacheEntry where
  rankings : List RankingEntry
  hasMorePages : Bool
  encounterName : String
  timestamp : Int
  encounterId : Int
  region : String
  partition : Option Int
  partitionName : Option String
deriving DecidableEq, Repr

/-- The keyed store backing the cache. -/
abbrev Store : Type := List (String × CacheEntry)

/-- Keyed lookup (localforage getItem). -/
def getItem : Store → String → Option CacheEntry
  | [], _ => none
  | kv :: rest, k => if kv.1 = k then some kv.2 else getItem rest k

/-- Keyed write (localforage setItem): replace the value under the key, or
append a fresh pair. -/
def setItem : Store → String → CacheEntry → Store
  | [], k, v => [(k, v)]
  | kv :: rest, k, v => if kv.1 = k then (k, v) :: rest else kv :: setItem rest k v

/-- Keyed delete (localforage removeItem). -/
def removeItem (store : Store) (key : String) : Store :=
  store.filter (fun kv => decide (kv.1 ≠ key))

namespace RankingCache

/-- Embedding of RankingCache.getCacheKey (cache.js lines 30-32);
`partition || 'default'` treats null and 0 as falsy. -/
def getCacheKey (encounterId difficulty size : Int) (region : String) (page : Int)
    (partition : Option Int) : String :=
  let partStr :=
    match partition with
    | none => "default"
    | some p => if p = 0 then "default" else toString p
  toString encounterId ++ "_" ++ toString difficulty ++ "_" ++ toString size ++ "_" ++
    region ++ "_" ++ toString page ++ "_" ++ partStr

/-- Argument object of RankingCache.set: the data parameter.  A missing or
non-array rankings field is modelled as `none`. -/
structure RankingsData where
  rankings : Option (List RankingEntry)
  hasMorePages : Bool
  encounterName : Option String
  partitionName : Option String
deriving Repr

/-- Per-record projection done by RankingCache.set (lines 100-118): only the
fields needed for matching are kept. -/
def minimalRanking (r : RankingEntry) : RankingEntry :=
  { name := r.name
    startTime := r.startTime
    duration := r.duration
    spec := r.spec
    amount := r.amount
    server := r.server.map (fun s => { name := s.name, region := s.region })
    report := r.report.map (fun p => { code := p.code, fightID := p.fightID }) }

/-- Embedding of RankingCache.set (cache.js lines 91-138).  Empty, missing or
non-array rankings make the call a no-op (lines 93-95).  `now` stands for
Date.now() at the time of the call; session-key bookkeeping (the
keysAddedInCurrentSearch set) is presentation for abortSearch and is not
modelled here. -/
def set (store : Store) (now : Int) (encounterId difficulty size : Int)
    (region : String) (page : Int) (partition : Option Int)
    (data : RankingsData) (encounterName : Option String) : Store :=
  match data.rankings with
  | none => store
  | some rs =>
    if rs.isEmpty then store
    else
      let key := getCacheKey encounterId difficulty size region page partition
      let minimalRankings := rs.map minimalRanking
      let cacheData : CacheEntry :=
        { rankings := minimalRankings
          hasMorePages := data.hasMorePages
          encounterName :=
            (encounterName.getD
              (data.encounterName.getD ("Encounter " ++ toString encounterId)))
          timestamp := now
          encounterId := encounterId
          region := region
          partition := partition
          partitionName := data.partitionName }
      setItem store key cacheData

/-- Embedding of RankingCache.cleanupIncompleteSearches (cache.js lines
175-210).  `marker` is the persisted search_in_progress timestamp, `now` is
Date.now().  The returned pair is (new store, new marker).  The staleness
threshold is the literal 60000 at line 186 (CACHE_CONSTANTS.CLEANUP_THRESHOLD_MS). -/
def cleanupIncompleteSearches (store : Store) (marker : Option Int) (now : Int) :
    Store × Option Int :=
  match marker with
  | none => (store, none)
  | some searchStartTime =>
    if now - searchStartTime < 60000 then
      (store, some searchStartTime)
    else
      (store.filter (fun kv => decide (kv.2.timestamp < searchStartTime)), none)

/-- One element of the export/import sequence: a {key, data} pair. -/
structure ImportEntry where
  key : String
  data : CacheEntry
deriving Repr

/-- Embedding of RankingCache.exportCache (cache.js lines 304-319). -/
def exportCache (store : Store) : List ImportEntry :=
  store.map (fun kv => { key := kv.1, data := kv.2 })

/-- The per-entry body of the importCache loop (cache.js lines 328-357):
overwrite when there is no existing item or the incoming timestamp is
strictly newer, otherwise skip.  The accumulator is
(store, importedCount, skippedCount); the display-name maps are presentation
and not modelled. -/
def importStep (acc : Store × Nat × Nat) (entry : ImportEntry) : Store × Nat × Nat :=
  match getItem acc.1 entry.key with
  | none => (setItem acc.1 entry.key entry.data, acc.2.1 + 1, acc.2.2)
  | some existingItem =>
    if existingItem.timestamp < entry.data.timestamp then
      (setItem acc.1 entry.key entry.data, acc.2.1 + 1, acc.2.2)
    else
      (acc.1, acc.2.1, acc.2.2 + 1)

/-- Embedding of RankingCache.importCache (cache.js lines 322-368), returning
(store, importedCount, skippedCount). -/
def importCache (store : Store) (importData : List ImportEntry) : Store × Nat × Nat :=
  importData.foldl importStep (store, 0, 0)

end RankingCache

/-- Store states reachable by the cache's own write operations, starting from
an empty store: set, removeItem (user cache-management, abortSearch),
clear (back to empty), the crash-recovery sweep, and importing an export of
a reachable store (the spec's replay use of import). -/
inductive Reachable : Store → Prop where
  | empty : Reachable []
  | set (s : Store) (now encounterId difficulty size : Int) (region : String)
      (page : Int) (partition : Option Int) (data : RankingCache.RankingsData)
      (encounterName : Option String) : Reachable s →
      Reachable (RankingCache.set s now encounterId difficulty size region page
        partition data encounterName)
  | remove (s : Store) (key : String) : Reachable s → Reachable (removeItem s key)
  | cleanup (s : Store) (marker : Option Int) (now : Int) : Reachable s →
      Reachable (RankingCache.cleanupIncompleteSearches s marker now).1
  | importExport (s t : Store) : Reachable s → Reachable t →
      Reachable (RankingCache.importCache s (RankingCache.exportCache t)).1

/-! Helper lemmas about the keyed store. -/

/-- Membership after a keyed write: every pair is the written one or was
already present. -/
theorem mem_setItem {s : Store} {k : String} {v : CacheEntry} {x : String × CacheEntry}
    (h : x ∈ setItem s k v) : x = (k, v) ∨ x ∈ s := by
  induction s with
  | nil =>
    simp only [setItem, List.mem_singleton] at h
    exact Or.inl h
  | cons kv rest ih =>
    by_cases hk : kv.1 = k
    · simp only [setItem, if_pos hk, List.mem_cons] at h
      rcases h with h | h
      · exact Or.inl h
      · exact Or.inr (List.mem_cons_of_mem kv h)
    · simp only [setItem, if_neg hk, List.mem_cons] at h
      rcases h with h | h
      · exact Or.inr (by simp [h])
      · rcases ih h with h2 | h2
        · exact Or.inl h2
        · exact Or.inr (List.mem_cons_of_mem kv h2)

/-- Reading back the key just written. -/
theorem getItem_setItem_self (s : Store) (k : String) (v : CacheEntry) :
    getItem (setItem s k v) k = some v := by
  induction s with
  | nil => simp [setItem, getItem]
  | cons kv rest ih =>
    by_cases hk : kv.1 = k
    · simp [setItem, hk, getItem]
    · simp only [setItem, if_neg hk, getItem, if_neg hk, ih]

/-- Reading a different key after a keyed write. -/
theorem getItem_setItem_ne (s : Store) {k k2 : String} (v : CacheEntry)
    (h : k2 ≠ k) : getItem (setItem s k v) k2 = getItem s k2 := by
  have hne : ¬(k = k2) := fun hx => h hx.symm
  induction s with
  | nil => simp [setItem, getItem, hne]
  | cons kv rest ih =>
    by_cases hk : kv.1 = k
    · have hkv2 : ¬(kv.1 = k2) := by
        rw [hk]
        exact hne
      simp only [setItem, if_pos hk, getItem, if_neg hne, if_neg hkv2]
    · by_cases hk2 : kv.1 = k2
      · simp only [setItem, if_neg hk, getItem, if_pos hk2]
      · simp only [setItem, if_neg hk, getItem, if_neg hk2, ih]

/-- Claim C2: with a persisted session marker older than the staleness
threshold (60000 ms), cleanupIncompleteSearches deletes exactly the entries
timestamped at or after the marker; with a younger marker it deletes
nothing. -/
theorem C2_cleanup_incomplete_searches (store : Store) (m now : Int) :
    (now - m > CACHE_CONSTANTS.CLEANUP_THRESHOLD_MS →
      (∀ kv ∈ store, kv.2.timestamp ≥ m →
        kv ∉ (RankingCache.cleanupIncompleteSearches store (some m) now).1) ∧
      (∀ kv ∈ store, kv.2.timestamp < m →
        kv ∈ (RankingCache.cleanupIncompleteSearches store (some m) now).1)) ∧
    (now - m < CACHE_CONSTANTS.CLEANUP_THRESHOLD_MS →
      (RankingCache.cleanupIncompleteSearches store (some m) now).1 = store) := by
  unfold CACHE_CONSTANTS.CLEANUP_THRESHOLD_MS
  constructor
  · intro hold
    have hcond : ¬(now - m < 60000) := by omega
    constructor
    · intro kv hmem hts
      simp [RankingCache.cleanupIncompleteSearches, hcond, List.mem_filter]
      intro _
      omega
    · intro kv hmem hts
      simp [RankingCache.cleanupIncompleteSearches, hcond, List.mem_filter]
      exact ⟨hmem, hts⟩
  · intro hyoung
    simp [RankingCache.cleanupIncompleteSearches, hyoung]

/-- Sample candidate record used by concrete witnesses. -/
def sampleRanking : RankingEntry :=
  { name := "Player"
    startTime := 3000
    duration := 5100
    spec := "Sage"
    amount := 9000
    server := none
    report := none }

/-- Sample cache entry (timestamp 500) used by concrete witnesses. -/
def sampleEntry : CacheEntry :=
  { rankings := [sampleRanking]
    hasMorePages := true
    encounterName := "E"
    timestamp := 500
    encounterId := 1
    region := "KR"
    partition := none
    partitionName := none }

/-- Witness for C2 at a concrete store, marker and clock: the entry at
timestamp 500 survives a sweep with marker 1000 at time 100000, and the
sweep at time 30000 (young marker) leaves the store unchanged. -/
theorem C2_cleanup_incomplete_searches_witness :
    ("a", sampleEntry) ∈
      (RankingCache.cleanupIncompleteSearches [("a", sampleEntry)]
        (some 1000) 100000).1 ∧
    (RankingCache.cleanupIncompleteSearches [("a", sampleEntry)]
        (some 1000) 30000).1 = [("a", sampleEntry)] :=
  ⟨((C2_cleanup_incomplete_searches _ 1000 100000).1 (by decide)).2 _ (by decide)
      (by decide),
   (C2_cleanup_incomplete_searches _ 1000 30000).2 (by decide)⟩

/-- Claim C5 counterexample: with counts [3, 5, 2] recorded at t, t+30s and
t+90s (t = 0) and the 120 s window, getRecentRequestCount at t+121s returns
7 (the records at t+30s and t+90s are still inside the window), not 2 as the
claim states. -/
theorem C5_counterexample :
    (RateLimiter.getRecentRequestCount 121000
      [{ timestamp := 0, count := 3 }, { timestamp := 30000, count := 5 },
       { timestamp := 90000, count := 2 }]).1 = 7 ∧ (7 : Int) ≠ 2 := by
  constructor
  · rfl
  · decide

/-- Claim C5 (amended): at t+121s the recorded counts [3, 5, 2] from t,
t+30s, t+90s sum to 7 inside the 120 s window (only the record at t has
aged out), and in general a record survives the filtering of
getRecentRequestCount exactly when its timestamp is strictly greater than
now - WINDOW_MS (so a record exactly WINDOW_MS old is dropped). -/
theorem C5_window_boundary :
    (RateLimiter.getRecentRequestCount 121000
      [{ timestamp := 0, count := 3 }, { timestamp := 30000, count := 5 },
       { timestamp := 90000, count := 2 }]).1 = 7 ∧
    (∀ (now : Int) (history : List RequestRecord) (r : RequestRecord),
      r ∈ history →
      (r ∈ (RateLimiter.getRecentRequestCount now history).2 ↔
        now - RATE_LIMIT_CONSTANTS.WINDOW_MS < r.timestamp)) := by
  refine ⟨by rfl, ?_⟩
  intro now history r hr
  simp [RateLimiter.getRecentRequestCount, RateLimiter.filterRecent,
    List.mem_filter, hr]

/-- Witness for C5 at the concrete history: the record at t+90s is kept
since it is strictly inside the window. -/
theorem C5_window_boundary_witness :
    ({ timestamp := 90000, count := 2 } : RequestRecord) ∈
      (RateLimiter.getRecentRequestCount 121000
        [{ timestamp := 0, count := 3 }, { timestamp := 30000, count := 5 },
         { timestamp := 90000, count := 2 }]).2 ↔
      121000 - RATE_LIMIT_CONSTANTS.WINDOW_MS < (90000 : Int) :=
  C5_window_boundary.2 121000
    [{ timestamp := 0, count := 3 }, { timestamp := 30000, count := 5 },
     { timestamp := 90000, count := 2 }] { timestamp := 90000, count := 2 }
    (by decide)

/-! Invariant: no persisted entry has an empty candidate list (claim C3). -/

/-- Store well-formedness: every persisted entry has a non-empty candidate
list. -/
def storeWF (s : Store) : Prop := ∀ kv ∈ s, kv.2.rankings ≠ []

/-- RankingCache.set preserves the non-empty-candidates invariant. -/
theorem storeWF_set (s : Store) (now encounterId difficulty size : Int)
    (region : String) (page : Int) (partition : Option Int)
    (data : RankingCache.RankingsData) (encounterName : Option String)
    (h : storeWF s) :
    storeWF (RankingCache.set s now encounterId difficulty size region page
      partition data encounterName) := by
  unfold RankingCache.set
  match hr : data.rankings with
  | none => exact h
  | some rs =>
    by_cases he : rs.isEmpty
    · simp only [if_pos he]
      exact h
    · simp only [if_neg he]
      intro kv hkv
      rcases mem_setItem hkv with hx | hx
      · subst hx
        simp only
        intro hmap
        rw [List.map_eq_nil_iff] at hmap
        rw [hmap] at he
        simp [List.isEmpty] at he
      · exact h kv hx

/-- Filtering preserves the invariant. -/
theorem storeWF_filter (s : Store) (p : String × CacheEntry → Bool)
    (h : storeWF s) : storeWF (s.filter p) := by
  intro kv hkv
  exact h kv (List.mem_filter.mp hkv).1

/-- The crash-recovery sweep preserves the invariant. -/
theorem storeWF_cleanup (s : Store) (marker : Option Int) (now : Int)
    (h : storeWF s) :
    storeWF (RankingCache.cleanupIncompleteSearches s marker now).1 := by
  unfold RankingCache.cleanupIncompleteSearches
  match marker with
  | none => exact h
  | some m =>
    by_cases hc : now - m < 60000
    · simp only [if_pos hc]
      exact h
    · simp only [if_neg hc]
      exact storeWF_filter s _ h

/-- The import fold preserves the invariant when every imported entry has a
non-empty candidate list. -/
theorem storeWF_importFold (L : List RankingCache.ImportEntry) :
    ∀ (acc : Store × Nat × Nat), storeWF acc.1 →
      (∀ e ∈ L, e.data.rankings ≠ []) →
      storeWF (L.foldl RankingCache.importStep acc).1 := by
  induction L with
  | nil =>
    intro acc hacc _
    exact hacc
  | cons e rest ih =>
    intro acc hacc hL
    have hstep : storeWF (RankingCache.importStep acc e).1 := by
      unfold RankingCache.importStep
      match hg : getItem acc.1 e.key with
      | none =>
        intro kv hkv
        rcases mem_setItem hkv with hx | hx
        · subst hx
          exact hL e (List.mem_cons_self e rest)
        · exact hacc kv hx
      | some existingItem =>
        by_cases hlt : existingItem.timestamp < e.data.timestamp
        · simp only [if_pos hlt]
          intro kv hkv
          rcases mem_setItem hkv with hx | hx
          · subst hx
            exact hL e (List.mem_cons_self e rest)
          · exact hacc kv hx
        · simp only [if_neg hlt]
          exact hacc
    exact ih (RankingCache.importStep acc e) hstep
      (fun x hx => hL x (List.mem_cons_of_mem e hx))

/-- Every entry of an export of a well-formed store has a non-empty
candidate list. -/
theorem exportCache_rankings_ne_nil (t : Store) (h : storeWF t) :
    ∀ e ∈ RankingCache.exportCache t, e.data.rankings ≠ [] := by
  intro e he
  unfold RankingCache.exportCache at he
  rcases List.mem_map.mp he with ⟨kv, hkv, hmap⟩
  subst hmap
  exact h kv hkv

/-- Claim C3: RankingCache.set with a missing, non-array or empty rankings
list writes nothing (the call is a no-op), and consequently every store
state reachable by the cache's own operations contains no entry with an
empty candidate list. -/
theorem C3_empty_rankings_never_stored :
    (∀ (store : Store) (now encounterId difficulty size : Int) (region : String)
      (page : Int) (partition : Option Int) (data : RankingCache.RankingsData)
      (encounterName : Option String),
      data.rankings = none ∨ data.rankings = some [] →
      RankingCache.set store now encounterId difficulty size region page
        partition data encounterName = store) ∧
    (∀ s : Store, Reachable s → ∀ kv ∈ s, kv.2.rankings ≠ []) := by
  constructor
  · intro store now encounterId difficulty size region page partition data
      encounterName h
    rcases h with h | h <;> simp [RankingCache.set, h]
  · intro s hreach
    induction hreach with
    | empty => intro kv hkv; cases hkv
    | set s now eid diff size region page part data ename _ ih =>
      exact storeWF_set s now eid diff size region page part data ename ih
    | remove s key _ ih => exact storeWF_filter s _ ih
    | cleanup s marker now _ ih => exact storeWF_cleanup s marker now ih
    | importExport s t _ _ ihs iht =>
      exact storeWF_importFold (RankingCache.exportCache t) (s, 0, 0) ihs
        (exportCache_rankings_ne_nil t iht)

/-- Witness for C3: a set call with rankings missing on a concrete store is
a no-op, and the empty store (reachable) satisfies the invariant. -/
theorem C3_empty_rankings_never_stored_witness :
    RankingCache.set [("a", sampleEntry)] 5 1 101 8 "KR" 1 none
      { rankings := none, hasMorePages := true, encounterName := none,
        partitionName := none } none = [("a", sampleEntry)] ∧
    (∀ kv ∈ ([] : Store), kv.2.rankings ≠ []) :=
  ⟨C3_empty_rankings_never_stored.1 [("a", sampleEntry)] 5 1 101 8 "KR" 1 none
      _ none (Or.inl rfl),
   C3_empty_rankings_never_stored.2 [] Reachable.empty⟩

/-! Import merge lemmas (claim C7). -/

/-- One import step never lowers the timestamp stored under any key. -/
theorem importStep_mono (acc : Store × Nat × Nat) (e : RankingCache.ImportEntry)
    (k : String) (c : CacheEntry) (h : getItem acc.1 k = some c) :
    ∃ c2, getItem (RankingCache.importStep acc e).1 k = some c2 ∧
      c.timestamp ≤ c2.timestamp := by
  unfold RankingCache.importStep
  match hg : getItem acc.1 e.key with
  | none =>
    by_cases hk : k = e.key
    · rw [hk] at h
      rw [h] at hg
      cases hg
    · exact ⟨c, by rw [getItem_setItem_ne _ _ hk]; exact h, le_refl _⟩
  | some existingItem =>
    by_cases hlt : existingItem.timestamp < e.data.timestamp
    · simp only [if_pos hlt]
      by_cases hk : k = e.key
      · subst hk
        rw [h] at hg
        injection hg with hg
        subst hg
        exact ⟨e.data, getItem_setItem_self _ _ _, le_of_lt hlt⟩
      · exact ⟨c, by rw [getItem_setItem_ne _ _ hk]; exact h, le_refl _⟩
    · simp only [if_neg hlt]
      exact ⟨c, h, le_refl _⟩

/-- The import fold never lowers the timestamp stored under any key. -/
theorem importFold_mono (L : List RankingCache.ImportEntry) :
    ∀ (acc : Store × Nat × Nat) (k : String) (c : CacheEntry),
      getItem acc.1 k = some c →
      ∃ c2, getItem (L.foldl RankingCache.importStep acc).1 k = some c2 ∧
        c.timestamp ≤ c2.timestamp := by
  induction L with
  | nil => exact fun acc k c h => ⟨c, h, le_refl _⟩
  | cons e rest ih =>
    intro acc k c h
    rcases importStep_mono acc e k c h with ⟨c1, h1, hle1⟩
    rcases ih (RankingCache.importStep acc e) k c1 h1 with ⟨c2, h2, hle2⟩
    exact ⟨c2, h2, le_trans hle1 hle2⟩

/-- After one import step the processed key holds a timestamp at least the
incoming one. -/
theorem importStep_post (acc : Store × Nat × Nat) (e : RankingCache.ImportEntry) :
    ∃ c, getItem (RankingCache.importStep acc e).1 e.key = some c ∧
      e.data.timestamp ≤ c.timestamp := by
  unfold RankingCache.importStep
  match hg : getItem acc.1 e.key with
  | none => exact ⟨e.data, getItem_setItem_self _ _ _, le_refl _⟩
  | some existingItem =>
    by_cases hlt : existingItem.timestamp < e.data.timestamp
    · simp only [if_pos hlt]
      exact ⟨e.data, getItem_setItem_self _ _ _, le_refl _⟩
    · simp only [if_neg hlt]
      exact ⟨existingItem, hg, le_of_not_lt hlt⟩

/-- After importing a whole list, every imported key holds a timestamp at
least the incoming one. -/
theorem importFold_post (L : List RankingCache.ImportEntry) :
    ∀ (acc : Store × Nat × Nat), ∀ e ∈ L,
      ∃ c, getItem (L.foldl RankingCache.importStep acc).1 e.key = some c ∧
        e.data.timestamp ≤ c.timestamp := by
  induction L with
  | nil => intro acc e he; cases he
  | cons e0 rest ih =>
    intro acc e he
    rcases List.mem_cons.mp he with he0 | her
    · subst he0
      rcases importStep_post acc e with ⟨c1, h1, hle1⟩
      rcases importFold_mono rest (RankingCache.importStep acc e) e.key c1 h1
        with ⟨c2, h2, hle2⟩
      exact ⟨c2, by simpa using h2, le_trans hle1 hle2⟩
    · rcases ih (RankingCache.importStep acc e0) e her with ⟨c, hc, hle⟩
      exact ⟨c, by simpa using hc, hle⟩

/-- When every entry of the list is already dominated by the store, the fold
of importStep changes nothing and counts every entry as skipped. -/
theorem importFold_skip (L : List RankingCache.ImportEntry) :
    ∀ (s : Store) (i k : Nat),
      (∀ e ∈ L, ∃ c, getItem s e.key = some c ∧ e.data.timestamp ≤ c.timestamp) →
      L.foldl RankingCache.importStep (s, i, k) = (s, i, k + L.length) := by
  induction L with
  | nil => intro s i k _; rfl
  | cons e rest ih =>
    intro s i k hdom
    rcases hdom e (List.mem_cons_self e rest) with ⟨c, hc, hle⟩
    have hstep : RankingCache.importStep (s, i, k) e = (s, i, k + 1) := by
      unfold RankingCache.importStep
      simp only [hc]
      rw [if_neg (not_lt_of_le hle)]
    have hrest := ih s i (k + 1) (fun x hx => hdom x (List.mem_cons_of_mem e hx))
    calc (e :: rest).foldl RankingCache.importStep (s, i, k)
        = rest.foldl RankingCache.importStep (s, i, k + 1) := by
          simp [List.foldl_cons, hstep]
      _ = (s, i, (k + 1) + rest.length) := hrest
      _ = (s, i, k + (rest.length + 1)) := by
          rw [Nat.add_assoc, Nat.add_comm 1 rest.length]
      _ = (s, i, k + (e :: rest).length) := by simp

/-- Claim C7: importCache overwrites a key only when the incoming entry's
timestamp is strictly newer, otherwise skips the entry and counts it as
skipped; importing the same list a second time leaves the store unchanged
(everything is skipped), and an older-timestamped duplicate of an existing
key is always skipped. -/
theorem C7_import_idempotent (s : Store) (L : List RankingCache.ImportEntry)
    (k : String) (d e : CacheEntry) :
    (getItem s k = some e → d.timestamp < e.timestamp →
      RankingCache.importCache s [{ key := k, data := d }] = (s, 0, 1)) ∧
    RankingCache.importCache (RankingCache.importCache s L).1 L =
      ((RankingCache.importCache s L).1, 0, L.length) := by
  constructor
  · intro hget hlt
    unfold RankingCache.importCache
    simp only [List.foldl_cons, List.foldl_nil]
    unfold RankingCache.importStep
    simp only [hget]
    rw [if_neg (not_lt_of_le (le_of_lt hlt))]
  · unfold RankingCache.importCache
    have hdom := importFold_post L (s, 0, 0)
    have := importFold_skip L (L.foldl RankingCache.importStep (s, 0, 0)).1 0 0
      hdom
    simpa using this

/-- Older cache entry (timestamp 5) used by the C7 witness. -/
def sampleOlderEntry : CacheEntry :=
  { sampleEntry with timestamp := 5 }

/-- Witness for C7: an import of an older-timestamped duplicate of key "a"
into a concrete store is skipped and leaves the store unchanged, and
replaying an import there changes nothing the second time. -/
theorem C7_import_idempotent_witness :
    RankingCache.importCache [("a", sampleEntry)]
      [{ key := "a", data := sampleOlderEntry }] = ([("a", sampleEntry)], 0, 1) ∧
    RankingCache.importCache
      (RankingCache.importCache [("a", sampleEntry)]
        [{ key := "b", data := sampleOlderEntry }]).1
      [{ key := "b", data := sampleOlderEntry }] =
      ((RankingCache.importCache [("a", sampleEntry)]
        [{ key := "b", data := sampleOlderEntry }]).1, 0,
        ([{ key := "b", data := sampleOlderEntry }] :
          List RankingCache.ImportEntry).length) :=
  ⟨(C7_import_idempotent [("a", sampleEntry)] [] "a" sampleOlderEntry
      sampleEntry).1 (by decide) (by decide),
   (C7_import_idempotent [("a", sampleEntry)]
      [{ key := "b", data := sampleOlderEntry }] "a" sampleOlderEntry
      sampleEntry).2⟩

/-! Quota-aware client: src/unnamed/part_000, class FFLogsAPI. -/

/-- Rate-limit fields of the FFLogsAPI instance plus the shared
RateLimiter.requestHistory.  Point quantities are `ℚ` (POINTS_PER_REQUEST
is 1.1); `null` is `none`. -/
structure ApiState where
  rateLimitPerHour : Option ℚ
  pointsSpent : Option ℚ
  pointsResetIn : Option ℚ
  requestHistory : List RequestRecord
deriving Repr

/-- Embedding of FFLogsAPI.getAvailablePointSlots (part_000 lines 175-178).
The JavaScript test `!this.rateLimitPerHour || !this.pointsSpent` is truthy
falsiness: null and 0 both make the method return null. -/
def FFLogsAPI.getAvailablePointSlots (st : ApiState) : Option ℚ :=
  match st.rateLimitPerHour, st.pointsSpent with
  | some limit, some spent =>
    if limit = 0 ∨ spent = 0 then none
    else some (max 0 (limit - spent))
  | _, _ => none

/-- Outcome of the single network round-trip inside query, seen from the
caller: the HTTP response failed, the GraphQL body carried errors, or it
succeeded with data. -/
inductive NetOutcome (α : Type) where
  | httpError : NetOutcome α
  | gqlErrors (msg : String) : NetOutcome α
  | ok (data : α) : NetOutcome α

/-- The distinct errors query can throw. -/
inductive QueryError where
  | quotaExceeded (resetMinutes : Int)
  | cancelled
  | httpFailed
  | gqlFailed (msg : String)
deriving DecidableEq, Repr

/-- Result of one query call: the thrown error or returned data, the state
afterwards, and whether the network was reached. -/
structure QueryOutcome (α : Type) where
  result : Except QueryError α
  state : ApiState
  networkCalled : Bool

/-- The part of FFLogsAPI.query after the point check: short-term slot check
and cancellable countdown wait (part_000 lines 81-109), fetch (113-128) and
request-record push (133).  The slot check filters the shared history as a
side effect; the wait itself only advances the clock and is not modelled
further.  `signalAborted` is the cancellation signal observed during the
wait. -/
def FFLogsAPI.queryAfterPointCheck (st : ApiState) (signalAborted : Bool)
    (net : NetOutcome α) (now : Int) : QueryOutcome α :=
  if (RateLimiter.getAvailableRequestSlots now st.requestHistory).1 < 1 ∧
      signalAborted then
    { result := Except.error QueryError.cancelled
      state := { st with
                  requestHistory :=
                    (RateLimiter.getAvailableRequestSlots now st.requestHistory).2 }
      networkCalled := false }
  else
    match net with
    | NetOutcome.httpError =>
      { result := Except.error QueryError.httpFailed
        state := { st with
                    requestHistory :=
                      (RateLimiter.getAvailableRequestSlots now
                        st.requestHistory).2 }
        networkCalled := true }
    | NetOutcome.gqlErrors msg =>
      { result := Except.error (QueryError.gqlFailed msg)
        state := { st with
                    requestHistory :=
                      RateLimiter.addRequestRecord now 1
                        (RateLimiter.getAvailableRequestSlots now
                          st.requestHistory).2 }
        networkCalled := true }
    | NetOutcome.ok d =>
      { result := Except.ok d
        state := { st with
                    requestHistory :=
                      RateLimiter.addRequestRecord now 1
                        (RateLimiter.getAvailableRequestSlots now
                          st.requestHistory).2 }
        networkCalled := true }

/-- Embedding of FFLogsAPI.query (part_000 lines 65-141).  `requestCount` is
the number of aliased logical pages, `net` the network outcome and `now`
Date.now() for this call.  The point check of lines 68-78 comes first; on
failure nothing else happens. -/
def FFLogsAPI.query (st : ApiState) (requestCount : Nat) (signalAborted : Bool)
    (net : NetOutcome α) (now : Int) : QueryOutcome α :=
  match FFLogsAPI.getAvailablePointSlots st with
  | some avail =>
    if avail < requestCount * RATE_LIMIT_CONSTANTS.POINTS_PER_REQUEST then
      { result := Except.error
          (QueryError.quotaExceeded ⌈(st.pointsResetIn.getD 0) / 60⌉)
        state := st
        networkCalled := false }
    else FFLogsAPI.queryAfterPointCheck st signalAborted net now
  | none => FFLogsAPI.queryAfterPointCheck st signalAborted net now

/-- Claim C4: when the estimated remaining point budget is known and smaller
than requestCount × POINTS_PER_REQUEST, query fails fast with a
quota-exceeded error carrying the minutes until reset, makes no network
call, and leaves the state unchanged. -/
theorem C4_quota_fail_fast {α : Type} (st : ApiState) (requestCount : Nat)
    (signalAborted : Bool) (net : NetOutcome α) (now : Int) (avail : ℚ)
    (hknown : FFLogsAPI.getAvailablePointSlots st = some avail)
    (hlow : avail < requestCount * RATE_LIMIT_CONSTANTS.POINTS_PER_REQUEST) :
    FFLogsAPI.query st requestCount signalAborted net now =
      { result := Except.error
          (QueryError.quotaExceeded ⌈(st.pointsResetIn.getD 0) / 60⌉)
        state := st
        networkCalled := false } := by
  unfold FFLogsAPI.query
  rw [hknown]
  simp only [if_pos hlow]

/-- Concrete client state used by the C4 witness: limit 10, 9.5 points
spent, 600 s to reset. -/
def sampleApiState : ApiState :=
  { rateLimitPerHour := some 10
    pointsSpent := some (19 / 2)
    pointsResetIn := some 600
    requestHistory := [] }

/-- Witness for C4: on sampleApiState, a 2-page call (2.2 estimated points
against 0.5 available) fails fast with a 10-minute reset estimate and
unchanged state. -/
theorem C4_quota_fail_fast_witness :
    FFLogsAPI.query sampleApiState 2 false (NetOutcome.ok (0 : Nat)) 1000 =
      { result := Except.error (QueryError.quotaExceeded 10)
        state := sampleApiState
        networkCalled := false } := by
  have h := C4_quota_fail_fast sampleApiState 2 false (NetOutcome.ok (0 : Nat))
    1000 (1 / 2)
    (by norm_num [FFLogsAPI.getAvailablePointSlots, sampleApiState])
    (by norm_num [RATE_LIMIT_CONSTANTS.POINTS_PER_REQUEST])
  rw [h]
  norm_num [sampleApiState]

/-- The window filter is idempotent. -/
theorem filterRecent_idem (now : Int) (h : List RequestRecord) :
    RateLimiter.filterRecent now (RateLimiter.filterRecent now h) =
      RateLimiter.filterRecent now h := by
  unfold RateLimiter.filterRecent
  rw [List.filter_filter]
  simp

/-- Every query call either reaches the stage after the point check or fails
fast with a quota error, unchanged state and no network call. -/
theorem query_point_check_cases {α : Type} (st : ApiState) (requestCount : Nat)
    (signalAborted : Bool) (net : NetOutcome α) (now : Int) :
    FFLogsAPI.query st requestCount signalAborted net now =
      FFLogsAPI.queryAfterPointCheck st signalAborted net now ∨
    ((FFLogsAPI.query st requestCount signalAborted net now).state = st ∧
     (FFLogsAPI.query st requestCount signalAborted net now).networkCalled = false ∧
     ∃ m, (FFLogsAPI.query st requestCount signalAborted net now).result =
       Except.error (QueryError.quotaExceeded m)) := by
  unfold FFLogsAPI.query
  split
  · split
    · exact Or.inr ⟨rfl, rfl, _, rfl⟩
    · exact Or.inl rfl
  · exact Or.inl rfl

/-- On a successful call, queryAfterPointCheck leaves the filtered history
plus exactly one fresh record of count 1. -/
theorem queryAfterPointCheck_ok_history {α : Type} (st : ApiState)
    (signalAborted : Bool) (net : NetOutcome α) (now : Int) (d : α)
    (hok : (FFLogsAPI.queryAfterPointCheck st signalAborted net now).result =
      Except.ok d) :
    (FFLogsAPI.queryAfterPointCheck st signalAborted net now).state.requestHistory =
      RateLimiter.filterRecent now st.requestHistory ++
        [{ timestamp := now, count := 1 }] := by
  unfold FFLogsAPI.queryAfterPointCheck at hok ⊢
  split at hok
  · simp at hok
  · rename_i hc
    rw [if_neg hc]
    cases net with
    | httpError => simp at hok
    | gqlErrors msg => simp at hok
    | ok d2 =>
      simp [RateLimiter.addRequestRecord, RateLimiter.getAvailableRequestSlots,
        RateLimiter.getRecentRequestCount]

/-- Claim C9: a successful query pushes exactly one request record, with
count 1, onto the shared short-term history, whatever the requestCount
argument was; the in-window usage therefore grows by exactly 1. -/
theorem C9_one_record_per_network_call {α : Type} (st : ApiState)
    (requestCount : Nat) (signalAborted : Bool) (net : NetOutcome α) (now : Int)
    (d : α)
    (hok : (FFLogsAPI.query st requestCount signalAborted net now).result =
      Except.ok d) :
    (FFLogsAPI.query st requestCount signalAborted net now).state.requestHistory =
      RateLimiter.filterRecent now st.requestHistory ++
        [{ timestamp := now, count := 1 }] ∧
    (RateLimiter.getRecentRequestCount now
        (FFLogsAPI.query st requestCount signalAborted net
          now).state.requestHistory).1 =
      (RateLimiter.getRecentRequestCount now st.requestHistory).1 + 1 := by
  rcases query_point_check_cases st requestCount signalAborted net now with
    hq | ⟨_, _, m, hres⟩
  swap
  · rw [hres] at hok
    cases hok
  have hmain : (FFLogsAPI.query st requestCount signalAborted net
      now).state.requestHistory =
      RateLimiter.filterRecent now st.requestHistory ++
        [{ timestamp := now, count := 1 }] := by
    rw [hq] at hok ⊢
    exact queryAfterPointCheck_ok_history st signalAborted net now d hok
  refine ⟨hmain, ?_⟩
  rw [hmain]
  unfold RateLimiter.getRecentRequestCount
  simp only
  have hsplit : RateLimiter.filterRecent now
      (RateLimiter.filterRecent now st.requestHistory ++
        [{ timestamp := now, count := 1 }]) =
      RateLimiter.filterRecent now (RateLimiter.filterRecent now
        st.requestHistory) ++
      RateLimiter.filterRecent now [{ timestamp := now, count := 1 }] := by
    unfold RateLimiter.filterRecent
    simp [List.filter_append]
  rw [hsplit, filterRecent_idem]
  have hone : RateLimiter.filterRecent now [{ timestamp := now, count := 1 }] =
      [{ timestamp := now, count := 1 }] := by
    unfold RateLimiter.filterRecent RATE_LIMIT_CONSTANTS.WINDOW_MS
    simp
  rw [hone, List.foldl_append]
  simp [List.foldl_cons, List.foldl_nil]

/-- Empty client state used by the C9 witness. -/
def emptyApiState : ApiState :=
  { rateLimitPerHour := none
    pointsSpent := none
    pointsResetIn := none
    requestHistory := [] }

/-- Witness for C9: a successful 30-page batched call on an empty history
leaves exactly one record of count 1. -/
theorem C9_one_record_per_network_call_witness :
    (FFLogsAPI.query emptyApiState 30 false (NetOutcome.ok (7 : Nat))
        5000).state.requestHistory =
      RateLimiter.filterRecent 5000 emptyApiState.requestHistory ++
        [{ timestamp := 5000, count := 1 }] ∧
    (RateLimiter.getRecentRequestCount 5000
        (FFLogsAPI.query emptyApiState 30 false (NetOutcome.ok (7 : Nat))
          5000).state.requestHistory).1 =
      (RateLimiter.getRecentRequestCount 5000 emptyApiState.requestHistory).1 + 1 :=
  C9_one_record_per_network_call emptyApiState 30 false (NetOutcome.ok (7 : Nat))
    5000 7 (by rfl)

/-- Claim C10: getAvailablePointSlots returns null whenever rateLimitPerHour
or pointsSpent is null or 0; hence a query made while pointsSpentThisHour is
exactly 0 skips the quota fail-fast check and proceeds to the network. -/
theorem C10_zero_spent_skips_quota_check :
    (∀ st : ApiState,
      st.rateLimitPerHour = none ∨ st.rateLimitPerHour = some 0 ∨
        st.pointsSpent = none ∨ st.pointsSpent = some 0 →
      FFLogsAPI.getAvailablePointSlots st = none) ∧
    (∀ (α : Type) (st : ApiState) (requestCount : Nat) (net : NetOutcome α)
      (now : Int), st.pointsSpent = some 0 →
      (FFLogsAPI.query st requestCount false net now).networkCalled = true ∧
      ∀ m, (FFLogsAPI.query st requestCount false net now).result ≠
        Except.error (QueryError.quotaExceeded m)) := by
  have hnull : ∀ st : ApiState,
      st.rateLimitPerHour = none ∨ st.rateLimitPerHour = some 0 ∨
        st.pointsSpent = none ∨ st.pointsSpent = some 0 →
      FFLogsAPI.getAvailablePointSlots st = none := by
    intro st h
    unfold FFLogsAPI.getAvailablePointSlots
    rcases st with ⟨rl, ps, pr, hist⟩
    simp only at h ⊢
    rcases h with h | h | h | h <;> subst h
    · rfl
    · cases ps with
      | none => rfl
      | some v => simp
    · cases rl with
      | none => rfl
      | some v => rfl
    · cases rl with
      | none => rfl
      | some v => simp
  refine ⟨hnull, ?_⟩
  intro α st requestCount net now hzero
  have hav : FFLogsAPI.getAvailablePointSlots st = none :=
    hnull st (Or.inr (Or.inr (Or.inr hzero)))
  have hq : FFLogsAPI.query st requestCount false net now =
      FFLogsAPI.queryAfterPointCheck st false net now := by
    unfold FFLogsAPI.query
    rw [hav]
  rw [hq]
  unfold FFLogsAPI.queryAfterPointCheck
  have hcond : ¬((RateLimiter.getAvailableRequestSlots now
      st.requestHistory).1 < 1 ∧ (false : Bool) = true) := by
    simp
  rw [if_neg hcond]
  cases net with
  | httpError =>
    exact ⟨rfl, fun m h => by simp at h⟩
  | gqlErrors msg =>
    exact ⟨rfl, fun m h => by simp at h⟩
  | ok d =>
    exact ⟨rfl, fun m h => by simp at h⟩

/-- Client state with a known limit but zero points spent, used by the C10
witness. -/
def zeroSpentApiState : ApiState :=
  { rateLimitPerHour := some 10
    pointsSpent := some 0
    pointsResetIn := none
    requestHistory := [] }

/-- Witness for C10: with a known limit of 10 but 0 points spent this hour,
the slot estimate is null and a query reaches the network. -/
theorem C10_zero_spent_skips_quota_check_witness :
    FFLogsAPI.getAvailablePointSlots zeroSpentApiState = none ∧
    (FFLogsAPI.query zeroSpentApiState 5 false (NetOutcome.ok (1 : Nat))
      0).networkCalled = true :=
  ⟨C10_zero_spent_skips_quota_check.1 zeroSpentApiState
      (Or.inr (Or.inr (Or.inr rfl))),
   (C10_zero_spent_skips_quota_check.2 Nat zeroSpentApiState 5
      (NetOutcome.ok 1) 0 rfl).1⟩

/-! Dynamic batch sizing: src/js/search.js lines 556-571. -/

/-- JavaScript `x || d` on a nullable number: null and 0 both fall back to
the default. -/
def jsOr (x : Option ℚ) (d : ℚ) : ℚ :=
  match x with
  | none => d
  | some v => if v = 0 then d else v

/-- JavaScript `m ? m - page + 1 : 999` (search.js lines 557 and 566): pages
remaining to a known or estimated end, with null or 0 treated as unknown. -/
def remainingToEnd (maxPage : Option Int) (page : Int) : Int :=
  match maxPage with
  | none => 999
  | some m => if m = 0 then 999 else m - page + 1

/-- Embedding of the dynamic batch size computation (search.js lines
561-567): Math.min of MAX_BATCH_SIZE, `availablePoints || 999`, the pages
remaining to the known end and the pages remaining to the estimated end.
The loop at line 569 breaks when this is ≤ 0. -/
def dynamicBatchSize (availablePoints : Option ℚ) (maxPage : Option Int)
    (estimatedMaxPages : Option Int) (page : Int) : ℚ :=
  min (min ((SEARCH_CONSTANTS.MAX_BATCH_SIZE : Int) : ℚ) (jsOr availablePoints 999))
    (min ((remainingToEnd maxPage page : Int) : ℚ)
      ((remainingToEnd estimatedMaxPages page : Int) : ℚ))

/-- Modelled from the spec: the claim's batch-size formula, "the minimum of
the four independent bounds", with the point budget entering the minimum
as-is.  Kept for comparison against `dynamicBatchSize`, the formula the
source computes. -/
def claimedBatchSize (availablePoints : ℚ) (maxPage estimatedMaxPages page : Int) :
    ℚ :=
  min (min ((SEARCH_CONSTANTS.MAX_BATCH_SIZE : Int) : ℚ) availablePoints)
    (min (((maxPage - page + 1 : Int)) : ℚ) (((estimatedMaxPages - page + 1 : Int)) : ℚ))

/-- Claim C6 counterexample: with a remaining point budget of exactly 0,
10 pages to the known and estimated end and page 1, the source computes a
batch size of 10 (the zero budget is falsy and replaced by 999) and does not
stop, while the claim's four-bound minimum is 0 and demands a stop. -/
theorem C6_counterexample :
    dynamicBatchSize (some 0) (some 10) (some 10) 1 = 10 ∧
    claimedBatchSize 0 10 10 1 = 0 ∧
    ¬(dynamicBatchSize (some 0) (some 10) (some 10) 1 ≤ 0) := by
  refine ⟨?_, ?_, ?_⟩ <;>
    norm_num [dynamicBatchSize, claimedBatchSize, jsOr, remainingToEnd,
      SEARCH_CONSTANTS.MAX_BATCH_SIZE]

/-- Claim C6 (amended): when all four bounds are truthy (non-zero, non-null)
the source's batch size is exactly the claimed minimum of the four bounds,
and the loop stops when it is ≤ 0; but a point budget of 0 is treated like
an unknown budget (the 999 fallback) rather than stopping the round, so with
at least one page remaining the round proceeds. -/
theorem C6_dynamic_batch_size (a : ℚ) (mp est page : Int)
    (ha : a ≠ 0) (hmp : mp ≠ 0) (hest : est ≠ 0) :
    dynamicBatchSize (some a) (some mp) (some est) page =
      claimedBatchSize a mp est page ∧
    dynamicBatchSize (some 0) (some mp) (some est) page =
      dynamicBatchSize none (some mp) (some est) page ∧
    (1 ≤ mp - page + 1 → 1 ≤ est - page + 1 →
      0 < dynamicBatchSize (some 0) (some mp) (some est) page) := by
  refine ⟨?_, ?_, ?_⟩
  · simp [dynamicBatchSize, claimedBatchSize, jsOr, remainingToEnd, ha, hmp, hest]
  · simp [dynamicBatchSize, jsOr]
  · intro h1 h2
    simp only [dynamicBatchSize, jsOr, remainingToEnd, if_neg hmp, if_neg hest]
    have hmpq : (1 : ℚ) ≤ ((mp - page + 1 : Int) : ℚ) := by exact_mod_cast h1
    have hestq : (1 : ℚ) ≤ ((est - page + 1 : Int) : ℚ) := by exact_mod_cast h2
    push_cast at hmpq hestq
    simp only [lt_min_iff]
    refine ⟨⟨?_, ?_⟩, ?_, ?_⟩
    · norm_num [SEARCH_CONSTANTS.MAX_BATCH_SIZE]
    · norm_num
    · push_cast
      linarith
    · push_cast
      linarith

/-- Witness for C6 at truthy bounds: budget 5, known and estimated end 10,
page 1. -/
theorem C6_dynamic_batch_size_witness :
    dynamicBatchSize (some 5) (some 10) (some 10) 1 =
      claimedBatchSize 5 10 10 1 ∧
    dynamicBatchSize (some 0) (some 10) (some 10) 1 =
      dynamicBatchSize none (some 10) (some 10) 1 ∧
    (1 ≤ (10 : Int) - 1 + 1 → 1 ≤ (10 : Int) - 1 + 1 →
      0 < dynamicBatchSize (some 0) (some 10) (some 10) 1) :=
  C6_dynamic_batch_size 5 10 10 1 (by norm_num) (by norm_num) (by norm_num)

/-! Page-range discovery: src/js/rankings.js, findMaxPages (lines 173-201). -/

/-- The probe findMaxPages makes on one page: getEncounterRankings either
throws (Except.error, the catch narrows down), or returns an object whose
rankings field may be missing (ok none) or a list; the page counts as valid
exactly when `rankings && rankings.rankings && rankings.rankings.length > 0`
(line 186). -/
def probeNonempty (orac : Nat → Except Unit (Option (List RankingEntry)))
    (page : Nat) : Bool :=
  match orac page with
  | Except.error _ => false
  | Except.ok none => false
  | Except.ok (some rankings) => decide (0 < rankings.length)

/-- The while loop of findMaxPages (lines 178-198): binary search keeping
`maxValidPage` (`best`) as the last non-empty page seen.  The JS loop is
bounded because the interval shrinks each iteration; the embedding carries
fuel, and fuel ≥ high + 1 - low is enough to reach the exit (proved in
findMaxPagesAux_correct, which never consumes the fuel first). -/
def findMaxPagesAux (probe : Nat → Bool) : Nat → Nat → Nat → Nat → Nat
  | 0, _, _, best => best
  | fuel + 1, low, high, best =>
    if low ≤ high then
      if probe ((low + high) / 2) then
        findMaxPagesAux probe fuel ((low + high) / 2 + 1) high ((low + high) / 2)
      else
        findMaxPagesAux probe fuel low ((low + high) / 2 - 1) best
    else best

/-- Embedding of findMaxPages: search [1, MAX_PAGES] starting from
maxValidPage = 1. -/
def findMaxPages (orac : Nat → Except Unit (Option (List RankingEntry))) : Nat :=
  findMaxPagesAux (probeNonempty orac) SEARCH_CONSTANTS.MAX_PAGES 1
    SEARCH_CONSTANTS.MAX_PAGES 1

/-- Number of probes (getEncounterRankings calls) the loop issues, same
recursion structure as findMaxPagesAux. -/
def countProbesAux (probe : Nat → Bool) : Nat → Nat → Nat → Nat
  | 0, _, _ => 0
  | fuel + 1, low, high =>
    if low ≤ high then
      if probe ((low + high) / 2) then
        countProbesAux probe fuel ((low + high) / 2 + 1) high + 1
      else
        countProbesAux probe fuel low ((low + high) / 2 - 1) + 1
    else 0

/-- Probe count of a full findMaxPages run. -/
def countProbes (orac : Nat → Except Unit (Option (List RankingEntry))) : Nat :=
  countProbesAux (probeNonempty orac) SEARCH_CONSTANTS.MAX_PAGES 1
    SEARCH_CONSTANTS.MAX_PAGES

/-- Correctness of the binary-search loop over a prefix oracle: with the
invariants of the findMaxPages loop and enough fuel, the loop returns k, the
last non-empty page. -/
theorem findMaxPagesAux_correct (probe : Nat → Bool) (k : Nat) (hk : 1 ≤ k)
    (hprobe : ∀ p, 1 ≤ p → (probe p = true ↔ p ≤ k)) :
    ∀ fuel low high best, 1 ≤ low → low ≤ k + 1 → k ≤ high → best ≤ k →
      (low = best + 1 ∨ (low = 1 ∧ best = 1)) →
      high + 1 - low ≤ fuel →
      findMaxPagesAux probe fuel low high best = k := by
  intro fuel
  induction fuel with
  | zero =>
    intro low high best h1 h2 h3 h4 h5 h6
    simp only [findMaxPagesAux]
    omega
  | succ fuel ih =>
    intro low high best h1 h2 h3 h4 h5 h6
    simp only [findMaxPagesAux]
    by_cases hlh : low ≤ high
    · rw [if_pos hlh]
      have hmid_ge : low ≤ (low + high) / 2 := by omega
      have hmid_le : (low + high) / 2 ≤ high := by omega
      by_cases hp : probe ((low + high) / 2) = true
      · rw [if_pos hp]
        have hmk : (low + high) / 2 ≤ k := (hprobe _ (by omega)).mp hp
        exact ih ((low + high) / 2 + 1) high ((low + high) / 2) (by omega)
          (by omega) h3 hmk (Or.inl rfl) (by omega)
      · rw [if_neg hp]
        have hmk : k < (low + high) / 2 := by
          by_contra hmk2
          push_neg at hmk2
          exact hp ((hprobe _ (by omega)).mpr hmk2)
        exact ih low ((low + high) / 2 - 1) best h1 h2 (by omega) h4 h5 (by omega)
    · rw [if_neg hlh]
      omega

/-- One halving step of the base-2 logarithm bound. -/
theorem log2_half_step (m : Nat) (hm : 1 ≤ m) :
    Nat.log2 (2 * (m / 2)) + 1 ≤ Nat.log2 (2 * m) := by
  by_cases h2 : 2 ≤ m
  · have h1 : 2 * (m / 2) ≤ m := by omega
    have hmono : Nat.log2 (2 * (m / 2)) ≤ Nat.log2 m := by
      rw [Nat.log2_eq_log_two, Nat.log2_eq_log_two]
      exact Nat.log_mono_right h1
    have hstep : Nat.log2 (2 * m) = Nat.log2 m + 1 := by
      rw [Nat.log2_eq_log_two, Nat.log2_eq_log_two, Nat.mul_comm]
      exact Nat.log_mul_base (by omega) (by omega)
    omega
  · have hm1 : m = 1 := by omega
    subst hm1
    norm_num [Nat.log2]

/-- The probe count is logarithmic in the interval length, whatever the fuel
and the probe outcomes. -/
theorem countProbesAux_le (probe : Nat → Bool) :
    ∀ m : Nat, ∀ fuel low high, 1 ≤ low → high + 1 - low ≤ m →
      countProbesAux probe fuel low high ≤ Nat.log2 (2 * m) := by
  intro m
  induction m using Nat.strong_induction_on with
  | _ m ih =>
    intro fuel low high hlow hm
    cases fuel with
    | zero => simp [countProbesAux]
    | succ fuel =>
      simp only [countProbesAux]
      by_cases hlh : low ≤ high
      · rw [if_pos hlh]
        have hm1 : 1 ≤ m := by omega
        have hhalf : m / 2 < m := by omega
        have hmid_ge : low ≤ (low + high) / 2 := by omega
        have hmid_le : (low + high) / 2 ≤ high := by omega
        have hlog := log2_half_step m hm1
        by_cases hp : probe ((low + high) / 2) = true
        · rw [if_pos hp]
          have hrec := ih (m / 2) hhalf fuel ((low + high) / 2 + 1) high
            (by omega) (by omega)
          omega
        · rw [if_neg hp]
          have hrec := ih (m / 2) hhalf fuel low ((low + high) / 2 - 1)
            hlow (by omega)
          omega
      · rw [if_neg hlh]
        exact Nat.zero_le _

/-- Claim C8: over a page oracle whose non-empty pages form the prefix 1..k
(errors and empty pages both probe false), findMaxPages returns k, never
propagates a probe error (it is a total function into page numbers), and
issues at most log2(MAX_PAGES) + 1 = 11 probes. -/
theorem C8_find_max_pages (orac : Nat → Except Unit (Option (List RankingEntry)))
    (k : Nat) (hk1 : 1 ≤ k) (hk2 : k ≤ SEARCH_CONSTANTS.MAX_PAGES)
    (hpre : ∀ p, 1 ≤ p → (probeNonempty orac p = true ↔ p ≤ k)) :
    findMaxPages orac = k ∧
    countProbes orac ≤ Nat.log2 SEARCH_CONSTANTS.MAX_PAGES + 1 := by
  constructor
  · exact findMaxPagesAux_correct (probeNonempty orac) k hk1 hpre
      SEARCH_CONSTANTS.MAX_PAGES 1 SEARCH_CONSTANTS.MAX_PAGES 1
      (by decide) (by omega)
      (by exact hk2) hk1 (Or.inr ⟨rfl, rfl⟩)
      (by decide)
  · have h := countProbesAux_le (probeNonempty orac) SEARCH_CONSTANTS.MAX_PAGES
      SEARCH_CONSTANTS.MAX_PAGES 1 SEARCH_CONSTANTS.MAX_PAGES
      (by decide) (by decide)
    have hlog : Nat.log2 (2 * SEARCH_CONSTANTS.MAX_PAGES) ≤
        Nat.log2 SEARCH_CONSTANTS.MAX_PAGES + 1 := by
      have hmax : SEARCH_CONSTANTS.MAX_PAGES = 1600 := rfl
      rw [hmax]
      norm_num [Nat.log2]
    unfold countProbes
    omega

/-- Oracle with exactly pages 1..47 non-empty; higher pages throw, as a probe
error is treated like an empty page. -/
def prefixOracle47 : Nat → Except Unit (Option (List RankingEntry)) :=
  fun p => if p ≤ 47 then Except.ok (some [sampleRanking]) else Except.error ()

/-- Witness for C8: with only pages 1..47 of 1600 non-empty, findMaxPages
converges to 47 within 11 probes. -/
theorem C8_find_max_pages_witness :
    findMaxPages prefixOracle47 = 47 ∧
    countProbes prefixOracle47 ≤ Nat.log2 SEARCH_CONSTANTS.MAX_PAGES + 1 :=
  C8_find_max_pages prefixOracle47 47 (by decide) (by decide)
    (by
      intro p hp
      by_cases h : p ≤ 47 <;> simp [probeNonempty, prefixOracle47, h])

end ShadowTrace
